import Mathlib

/-!
Verification of the front-end data model of the `rigging` compiler front end:
source provenance (`SourceLocation`, `Located<T>`), the parser error taxonomy,
the value-abstraction layer (big integers and string interning), and the
AST algebra, shallowly embedded from the Rust source.
-/

set_option maxHeartbeats 1000000

namespace Rigging

/-- Modelled from the spec: `codemap::Span` comes from the external `codemap`
crate (out of scope per spec section 1); the spec describes it as a concrete
half-open byte range in the original source text, so it is modelled as a pair
of byte positions. -/
structure Span where
  low : Nat
  high : Nat
deriving DecidableEq

/-- The provenance tree from `src/parser/location.rs`: five variants
`Unknown`, `Unique`, `Generated`, `Hint`, `Span`. The Rust enum derives
structural `PartialEq`/`Eq`, embedded here as decidable propositional
equality. -/
inductive SourceLocation where
  | Unknown : SourceLocation
  | Unique : Int → SourceLocation → SourceLocation
  | Generated : SourceLocation → SourceLocation
  | Hint : String → SourceLocation → SourceLocation → SourceLocation
  | Span : Span → SourceLocation
deriving DecidableEq

/-- The `#[default]` attribute in the source marks `Unknown` as the default
value of `SourceLocation`. -/
def SourceLocation.default : SourceLocation := SourceLocation.Unknown

/-- `Located<T>` from `src/parser/location.rs`: a value paired with a
`SourceLocation`. -/
structure Located (T : Type) where
  location : SourceLocation
  value : T
deriving DecidableEq

/-- `impl<T> From<(T, SourceLocation)> for Located<T>`: construction with an
explicit location (the operation the spec calls `wrap_at`). -/
def wrap_at {T : Type} (value : T) (location : SourceLocation) : Located T :=
  { location := location, value := value }

/-- `impl<T> From<T> for Located<T>`: construction from a bare value uses
`SourceLocation::default()` as the location (the operation the spec calls
`wrap`). -/
def wrap {T : Type} (value : T) : Located T :=
  { location := SourceLocation.default, value := value }

/-- The derived `PartialEq` on `Located<T>` (line 40 of
`src/parser/location.rs`): structural comparison of both fields. -/
def Located.eqStrict {T : Type} [DecidableEq T] (a b : Located T) : Bool :=
  decide (a.location = b.location) && decide (a.value = b.value)

/-- `impl<T> PartialEq<T> for Located<T>`: comparison of a `Located<T>`
against a bare `T` compares only the value, `self.value == *other`. -/
def Located.eqValue {T : Type} [DecidableEq T] (a : Located T) (t : T) : Bool :=
  decide (a.value = t)

/-- `impl<T> Deref for Located<T>`: dereferencing exposes the inner value. -/
def Located.deref {T : Type} (l : Located T) : T := l.value

/-- `Located::map` from `src/parser/location.rs` lines 107-117: applies `f`
to the value and keeps the location field unchanged. -/
def Located.map {T U : Type} (l : Located T) (f : T → U) : Located U :=
  { location := l.location, value := f l.value }

/-! ## Error taxonomy, from `src/parser/errors.rs` -/

/-- The closed set of six parser fault kinds. -/
inductive ParserError where
  | UnterminatedStringLiteral : ParserError
  | MalformedNumberLiteral : Char → ParserError
  | UnrecognizedCharacter : Char → ParserError
  | UnmatchedOpenBlock : ParserError
  | UnmatchedCloseBlock : ParserError
  | UnknownOperator : ParserError
deriving DecidableEq

/-- `Located<ParserError>`, the alias `LocatedParseError` in the source. -/
abbrev LocatedParseError := Located ParserError

/-- `ParserError::is_fatal` from `src/parser/errors.rs` lines 31-46. -/
def ParserError.is_fatal : ParserError → Bool
  | ParserError.MalformedNumberLiteral _ => false
  | ParserError.UnmatchedOpenBlock => false
  | ParserError.UnmatchedCloseBlock => false
  | ParserError.UnknownOperator => false
  | ParserError.UnrecognizedCharacter _ => true
  | ParserError.UnterminatedStringLiteral => true

/-- `ParserError::msg` from `src/parser/errors.rs` lines 48-87; `write!`
formatting of a `char` payload appends exactly that character, and the Rust
escapes `{{`/`}}` denote literal brace characters. -/
def ParserError.msg : ParserError → String
  | ParserError.UnterminatedStringLiteral => "unterminated string literal"
  | ParserError.MalformedNumberLiteral n =>
      "number literal is this base cannot contain " ++ String.singleton n
  | ParserError.UnrecognizedCharacter c =>
      "unrecognized character " ++ String.singleton c
  | ParserError.UnmatchedOpenBlock => "unmatched `\x7b`"
  | ParserError.UnmatchedCloseBlock => "unmatched `\x7d`"
  | ParserError.UnknownOperator => "unknown operator"

/-! ## Value abstraction layer, from `src/abstractions.rs` -/

/-- With the `bigint` cargo feature, `BigInteger` is `num_bigint::BigInt`,
an arbitrary-precision integer, embedded as `Int`. -/
abbrev BigInteger := Int

/-- Smallest value of the 64-bit machine integer `i64`, the type aliased to
`BigInteger` when the `bigint` feature is disabled. -/
def i64Min : Int := -9223372036854775808

/-- Largest value of `i64`. -/
def i64Max : Int := 9223372036854775807

/-- An integer is representable in `i64` when it lies in the machine range. -/
def i64Representable (n : Int) : Prop := i64Min ≤ n ∧ n ≤ i64Max

instance (n : Int) : Decidable (i64Representable n) := by
  unfold i64Representable
  infer_instance

/-- Two's-complement wrap of an arbitrary integer into the `i64` range, the
behavior of a Rust numeric cast to `i64`. -/
def i64Wrap (n : Int) : Int :=
  (n + 9223372036854775808) % 18446744073709551616 - 9223372036854775808

/-- Modelled from the spec: the string interner backend (the `string_cache`
crate behind `interned` and `resolve` in `src/abstractions.rs`) is an
external dependency, not under `src/`; the spec describes a process-wide,
monotonically growing canonicalization table assigning each distinct string
one canonical handle. The table is modelled as the list of interned strings
in insertion order and a handle as an index into it; this helper returns the
index of the first occurrence of a string in the table. -/
def lookupIdx : List String → String → Option Nat
  | [], _ => none
  | x :: xs, s =>
      if x = s then some 0 else Option.map (fun n => n + 1) (lookupIdx xs s)

/-- `interned` from `src/abstractions.rs`: canonicalizing insert-or-lookup.
Returns the updated table together with the handle for the string. -/
def interned (table : List String) (s : String) : List String × Nat :=
  match lookupIdx table s with
  | some i => (table, i)
  | none => (table ++ [s], table.length)

/-- `resolve` from `src/abstractions.rs`: maps a handle back to its text. -/
def resolve (table : List String) (h : Nat) : Option String := table[h]?

/-! ## Hashing model for the location wrapper -/

/-- Modelled from the spec: the `Hash` impl for `Located` in
`src/parser/location.rs` lines 94-105 feeds `self.location` into the hasher,
but no `Hash` implementation for `SourceLocation` itself appears under
`src/`; it is modelled as the canonical derived structural hash, namely the
stream of words a derived implementation would feed to the hasher: a variant
discriminant followed by the encodings of the fields, with strings sent as a
length-prefixed sequence of character codes. -/
def SourceLocation.hashTokens : SourceLocation → List Int
  | SourceLocation.Unknown => [0]
  | SourceLocation.Unique i inner => 1 :: i :: inner.hashTokens
  | SourceLocation.Generated inner => 2 :: inner.hashTokens
  | SourceLocation.Hint s a b =>
      3 :: (s.data.length : Int) ::
        (s.data.map (fun c => (c.toNat : Int)) ++ a.hashTokens ++ b.hashTokens)
  | SourceLocation.Span sp => [4, (sp.low : Int), (sp.high : Int)]

/-- The `Hash` impl for `Located` from `src/parser/location.rs` lines
94-105: the location is hashed first, then the value; `hv` is the stream the
value type itself feeds to the hasher. -/
def Located.hashTokens {T : Type} (hv : T → List Int) (l : Located T) :
    List Int :=
  SourceLocation.hashTokens l.location ++ hv l.value

/-! ## AST algebra, from `src/parser/ast.rs` -/

/-- The alias `type Text = String` from the source. -/
abbrev Text := String

/-- `AttributeData`: nested structured attribute payload carried by the
cross-cutting attribute wrappers. -/
inductive AttributeData where
  | Object : List (Text × AttributeData) → AttributeData
  | List : List AttributeData → AttributeData
  | Num : BigInteger → AttributeData
  | String : Text → AttributeData
  | Bool : Bool → AttributeData

/-- `LocatedAttributeData` alias. -/
abbrev LocatedAttributeData := Located AttributeData

/-- The alias `type Identifier = Text` from the source. -/
abbrev Identifier := Text

/-- The tuple struct `KindIdentifier(pub Identifier)`: ticked identifiers
differentiated from program variables. -/
structure KindIdentifier where
  name : Identifier

/-- `IdentifierType`: regular identifiers and operators. -/
inductive IdentifierType where
  | Regular : Identifier → IdentifierType
  | Operator : Identifier → IdentifierType

/-- `LocatedIdentifier` alias. -/
abbrev LocatedIdentifier := Located IdentifierType

/-- `LocatedKindIdentifier` alias. -/
abbrev LocatedKindIdentifier := Located KindIdentifier

/-- `InfixToken<T>`: tokens of an unresolved infix stream. -/
inductive InfixToken (T : Type) where
  | Primary : T → InfixToken T
  | Operator : LocatedIdentifier → InfixToken T
  | Prefix : LocatedIdentifier → InfixToken T

/-- `Literal`: the literal constants of the language. -/
inductive Literal where
  | Unit : Literal
  | Zero : Literal
  | One : Literal
  | True : Literal
  | False : Literal
  | Number : BigInteger → Literal
  | Hexadecimal : Text → Literal
  | Binary : Text → Literal
  | Undefined : Literal
  | String : Text → Literal
  | Real : Text → Literal

/-- `LocatedLiteral` alias. -/
abbrev LocatedLiteral := Located Literal

/-- `AbstractType` from `src/parser/ast.rs` lines 104-160; each recursive
child is wrapped in `Located`. -/
inductive AbstractType where
  | Identifier : LocatedIdentifier → AbstractType
  | Variable : LocatedKindIdentifier → AbstractType
  | Literal : LocatedLiteral → AbstractType
  | NumberSet : List BigInteger → AbstractType
  | In : Located AbstractType → Located AbstractType → AbstractType
  | Times : Located AbstractType → Located AbstractType → AbstractType
  | Sum : Located AbstractType → Located AbstractType → AbstractType
  | Minus : Located AbstractType → Located AbstractType → AbstractType
  | Exponential : Located AbstractType → AbstractType
  | Negative : Located AbstractType → AbstractType
  | Infix : List (InfixToken (Located AbstractType) × Span) → AbstractType
  | Increasing : AbstractType
  | Decreasing : AbstractType
  | EffectSet : List LocatedIdentifier → AbstractType
  | Function : Located AbstractType → Located AbstractType →
      Located AbstractType → AbstractType
  | Bidirectional : Located AbstractType → Located AbstractType →
      Located AbstractType → AbstractType
  | Wildcard : AbstractType
  | Tuple : List (Located AbstractType) → AbstractType
  | TypeConstructorApplication : LocatedIdentifier →
      List (Located AbstractType) → AbstractType
  | If : Located AbstractType → Located AbstractType →
      Located AbstractType → AbstractType
  | Existential : List LocatedKindIdentifier → Located AbstractType →
      Located AbstractType → AbstractType
  | Parenthesized : Located AbstractType → AbstractType

/-- `LocatedAbstractType` alias. -/
abbrev LocatedAbstractType := Located AbstractType

mutual

/-- `Pattern` from `src/parser/ast.rs` lines 213-239. -/
inductive Pattern where
  | Literal : LocatedLiteral → Pattern
  | Wildcard : Pattern
  | Typed : Located AbstractType → Located Pattern → Pattern
  | Identifier : LocatedIdentifier → Pattern
  | Variable : Located Pattern → Located AbstractType → Pattern
  | Constructor : LocatedIdentifier → List (Located Pattern) → Pattern
  | Vector : List (Located Pattern) → Pattern
  | VectorConcat : List (Located Pattern) → Pattern
  | VectorSubrange : LocatedIdentifier → BigInteger → BigInteger → Pattern
  | Tuple : List (Located Pattern) → Pattern
  | List : List (Located Pattern) → Pattern
  | Cons : Located Pattern → Located Pattern → Pattern
  | StringAppend : List (Located Pattern) → Pattern
  | Struct : List (Located FieldPattern) → Pattern
  | Attribute : Text → Option (Located AttributeData) → Located Pattern →
      Pattern

/-- `FieldPattern` from `src/parser/ast.rs` lines 244-251. -/
inductive FieldPattern where
  | Field : LocatedIdentifier → Located Pattern → FieldPattern
  | Wildcard : FieldPattern

end

/-- `LocatedPattern` alias. -/
abbrev LocatedPattern := Located Pattern

/-- `LocatedFieldPattern` alias. -/
abbrev LocatedFieldPattern := Located FieldPattern

/-- `LoopType`: the two loop forms. -/
inductive LoopType where
  | While : LoopType
  | Until : LoopType

/-- `IfLocation`: the separate keyword locations carried by a conditional. -/
structure IfLocation where
  if_loc : SourceLocation
  then_loc : SourceLocation
  else_loc : Option SourceLocation

mutual

/-- `Expression` from `src/parser/ast.rs` lines 277-370; the `For` variant
carries, in order, the loop identifier, start, end, step, the element type,
and the body. -/
inductive Expression where
  | Block : List (Located Expression) → Expression
  | Identifier : LocatedIdentifier → Expression
  | Reference : LocatedIdentifier → Expression
  | Dereference : Located Expression → Expression
  | Literal : LocatedLiteral → Expression
  | Typed : Located AbstractType → Located Expression → Expression
  | Application : LocatedIdentifier → List (Located Expression) → Expression
  | InfixApplication : Located Expression → LocatedIdentifier →
      Located Expression → Expression
  | Infix : List (InfixToken (Located Expression) × Span) → Expression
  | Tuple : List (Located Expression) → Expression
  | If : Located Expression → Located Expression → Located Expression →
      IfLocation → Expression
  | Loop : LoopType → Located (Option (Located Expression)) →
      Located Expression → Located Expression → Expression
  | For : LocatedIdentifier → Located Expression → Located Expression →
      Located Expression → Located AbstractType → Located Expression →
      Expression
  | Vector : List (Located Expression) → Expression
  | VectorAccess : Located Expression → Located Expression → Expression
  | VectorSubrange : Located Expression → Located Expression →
      Located Expression → Expression
  | VectorUpdate : Located Expression → Located Expression →
      Located Expression → Expression
  | VectorUpdateSubrange : Located Expression → Located Expression →
      Located Expression → Located Expression → Expression
  | VectorAppend : Located Expression → Located Expression → Expression
  | List : List (Located Expression) → Expression
  | Cons : Located Expression → Located Expression → Expression
  | Struct : List (Located Expression) → Expression
  | StructUpdate : Located Expression → List (Located Expression) →
      Expression
  | Field : Located Expression → LocatedIdentifier → Expression
  | Match : Located Expression → List (Located PatternExpression) →
      Expression
  | Let : Located LetBinding → Located Expression → Expression
  | Assign : Located Expression → Located Expression → Expression
  | Sizeof : Located AbstractType → Expression
  | Constraint : Located AbstractType → Expression
  | Exit : Located Expression → Expression
  | Throw : Located Expression → Expression
  | Try : Located Expression → List (Located PatternExpression) → Expression
  | Return : Located Expression → Expression
  | Assert : Located Expression → Located Expression → Expression
  | Variable : Located Expression → Located Expression →
      Located Expression → Expression
  | Attribute : Text → Option (Located AttributeData) →
      Located Expression → Expression
  | InternalPlet : Located Pattern → Located Expression →
      Located Expression → Expression
  | InternalReturn : Located Expression → Expression
  | InternalAssume : Located AbstractType → Located Expression → Expression

/-- `PatternExpression` from `src/parser/ast.rs` lines 381-386. -/
inductive PatternExpression where
  | Pattern : Located Pattern → Located Expression → PatternExpression
  | PatternWhen : Located Pattern → Located Expression →
      Located Expression → PatternExpression

/-- `LetBinding` from `src/parser/ast.rs` lines 391-395. -/
inductive LetBinding where
  | ValueBinding : Located Pattern → Located Expression → LetBinding

end

/-- `LocatedExpression` alias. -/
abbrev LocatedExpression := Located Expression

/-- `LocatedPatternExpression` alias. -/
abbrev LocatedPatternExpression := Located PatternExpression

/-- `LocatedLetBinding` alias. -/
abbrev LocatedLetBinding := Located LetBinding

/-- `Measure` alias: the optional termination measure of a loop. -/
abbrev Measure := Option LocatedExpression

/-- `LocatedMeasure` alias. -/
abbrev LocatedMeasure := Located Measure

/-- Unwrapping an attribute-annotated expression: projects the wrapped
inner expression (the third component) out of an `Expression::Attribute`
node. -/
def Expression.attributeInner : Expression → Option (Located Expression)
  | Expression.Attribute _ _ inner => some inner
  | _ => none

/-- Unwrapping an attribute-annotated pattern: projects the wrapped inner
pattern out of a `Pattern::Attribute` node. -/
def Pattern.attributeInner : Pattern → Option (Located Pattern)
  | Pattern.Attribute _ _ inner => some inner
  | _ => none

theorem lookupIdx_lt_length {l : List String} {s : String} {i : Nat}
    (h : lookupIdx l s = some i) : i < l.length := by
  induction l generalizing i with
  | nil => simp [lookupIdx] at h
  | cons x xs ih =>
    simp only [lookupIdx] at h
    split at h
    · cases h
      simp
    · rcases Option.map_eq_some'.mp h with ⟨j, hj, rfl⟩
      have := ih hj
      simp only [List.length_cons]
      omega

theorem lookupIdx_getElem {l : List String} {s : String} {i : Nat}
    (h : lookupIdx l s = some i) : l[i]? = some s := by
  induction l generalizing i with
  | nil => simp [lookupIdx] at h
  | cons x xs ih =>
    simp only [lookupIdx] at h
    split at h
    · cases h
      simpa using (by assumption : x = s)
    · rcases Option.map_eq_some'.mp h with ⟨j, hj, rfl⟩
      simpa using ih hj

theorem lookupIdx_append_self {l : List String} {s : String}
    (h : lookupIdx l s = none) : lookupIdx (l ++ [s]) s = some l.length := by
  induction l with
  | nil => simp [lookupIdx]
  | cons x xs ih =>
    simp only [lookupIdx] at h ⊢
    split at h
    · simp at h
    · rename_i hx
      rw [if_neg hx]
      simp [List.append_eq, ih (Option.map_eq_none'.mp h)]

theorem interned_lookup (table : List String) (s : String) :
    lookupIdx (interned table s).1 s = some (interned table s).2 := by
  unfold interned
  cases h : lookupIdx table s with
  | some i => simpa using h
  | none => simpa using lookupIdx_append_self h

theorem interned_getElem (table : List String) (s : String) :
    (interned table s).1[(interned table s).2]? = some s :=
  lookupIdx_getElem (interned_lookup table s)

theorem interned_handle_lt (table : List String) (s : String) :
    (interned table s).2 < (interned table s).1.length :=
  lookupIdx_lt_length (interned_lookup table s)

theorem interned_table_stable (table : List String) (s : String) {i : Nat}
    (h : i < table.length) : (interned table s).1[i]? = table[i]? := by
  unfold interned
  cases hl : lookupIdx table s with
  | some j => rfl
  | none => simp [List.getElem?_append, h]

theorem interned_of_lookup {table : List String} {s : String} {i : Nat}
    (h : lookupIdx table s = some i) : interned table s = (table, i) := by
  unfold interned
  rw [h]

theorem char_code_injective :
    Function.Injective (fun c : Char => (c.toNat : Int)) := by
  intro c d h
  simp only at h
  have hn : c.toNat = d.toNat := by exact_mod_cast h
  have h2 := congrArg Char.ofNat hn
  rwa [Char.ofNat_toNat, Char.ofNat_toNat] at h2

theorem hashTokens_stream_injective (a : SourceLocation) :
    ∀ (b : SourceLocation) (t1 t2 : List Int),
      SourceLocation.hashTokens a ++ t1 = SourceLocation.hashTokens b ++ t2 →
      a = b ∧ t1 = t2 := by
  induction a with
  | Unknown =>
    intro b t1 t2 h
    cases b <;> simp_all [SourceLocation.hashTokens]
  | Unique i inner ih =>
    intro b t1 t2 h
    cases b with
    | Unique j inner2 =>
      simp only [SourceLocation.hashTokens, List.cons_append,
        List.cons.injEq] at h
      obtain ⟨-, hj, htail⟩ := h
      obtain ⟨h1, h2⟩ := ih inner2 t1 t2 htail
      exact ⟨by rw [hj, h1], h2⟩
    | Unknown => simp [SourceLocation.hashTokens] at h
    | Generated _ => simp [SourceLocation.hashTokens] at h
    | Hint _ _ _ => simp [SourceLocation.hashTokens] at h
    | Span _ => simp [SourceLocation.hashTokens] at h
  | Generated inner ih =>
    intro b t1 t2 h
    cases b with
    | Generated inner2 =>
      simp only [SourceLocation.hashTokens, List.cons_append,
        List.cons.injEq] at h
      obtain ⟨-, htail⟩ := h
      obtain ⟨h1, h2⟩ := ih inner2 t1 t2 htail
      exact ⟨by rw [h1], h2⟩
    | Unknown => simp [SourceLocation.hashTokens] at h
    | Unique _ _ => simp [SourceLocation.hashTokens] at h
    | Hint _ _ _ => simp [SourceLocation.hashTokens] at h
    | Span _ => simp [SourceLocation.hashTokens] at h
  | Hint s p q ihp ihq =>
    intro b t1 t2 h
    cases b with
    | Hint s2 p2 q2 =>
      simp only [SourceLocation.hashTokens, List.cons_append,
        List.append_assoc, List.cons.injEq] at h
      obtain ⟨-, hlen, hrest⟩ := h
      have hlen2 : s.data.length = s2.data.length := by exact_mod_cast hlen
      obtain ⟨hmap, hrest2⟩ := List.append_inj hrest (by simp [hlen2])
      have hdata : s.data = s2.data :=
        List.map_injective_iff.mpr char_code_injective hmap
      obtain ⟨hp, hrest3⟩ := ihp p2 _ _ hrest2
      obtain ⟨hq, ht⟩ := ihq q2 _ _ hrest3
      exact ⟨by rw [String.ext hdata, hp, hq], ht⟩
    | Unknown => simp [SourceLocation.hashTokens] at h
    | Unique _ _ => simp [SourceLocation.hashTokens] at h
    | Generated _ => simp [SourceLocation.hashTokens] at h
    | Span _ => simp [SourceLocation.hashTokens] at h
  | Span sp =>
    intro b t1 t2 h
    cases b with
    | Span sp2 =>
      simp only [SourceLocation.hashTokens, List.cons_append,
        List.nil_append, List.cons.injEq] at h
      obtain ⟨-, hlo, hhi, ht⟩ := h
      have h1 : sp.low = sp2.low := by exact_mod_cast hlo
      have h2 : sp.high = sp2.high := by exact_mod_cast hhi
      have hsp : sp = sp2 := by
        cases sp
        cases sp2
        simp_all
      exact ⟨by rw [hsp], ht⟩
    | Unknown => simp [SourceLocation.hashTokens] at h
    | Unique _ _ => simp [SourceLocation.hashTokens] at h
    | Generated _ => simp [SourceLocation.hashTokens] at h
    | Hint _ _ _ => simp [SourceLocation.hashTokens] at h

/-! ## Theorems about the location model and error taxonomy -/

/-- C5: the hash of a located value feeds the location and then the value
into the hasher, so strictly equal located values feed identical streams,
and two located values with equal values but different locations feed
different streams. -/
theorem located_hash_combines_location_and_value {T : Type}
    (hv : T → List Int) :
    (∀ l1 l2 : Located T, l1 = l2 →
      Located.hashTokens hv l1 = Located.hashTokens hv l2) ∧
    (∀ l1 l2 : Located T, l1.value = l2.value → l1.location ≠ l2.location →
      Located.hashTokens hv l1 ≠ Located.hashTokens hv l2) := by
  constructor
  · intro l1 l2 h
    rw [h]
  · intro l1 l2 hval hloc hcontra
    unfold Located.hashTokens at hcontra
    rw [hval] at hcontra
    exact hloc (hashTokens_stream_injective l1.location l2.location _ _ hcontra).1

/-- Witness for C5 at concrete inputs: the same character value hashed at
two different locations produces different streams, and equal located
values produce equal streams. -/
theorem located_hash_combines_location_and_value_witness :
    Located.hashTokens (fun c : Char => [(c.toNat : Int)])
        (Located.mk SourceLocation.Unknown 'x') =
      Located.hashTokens (fun c : Char => [(c.toNat : Int)])
        (Located.mk SourceLocation.Unknown 'x') ∧
    Located.hashTokens (fun c : Char => [(c.toNat : Int)])
        (Located.mk SourceLocation.Unknown 'x') ≠
      Located.hashTokens (fun c : Char => [(c.toNat : Int)])
        (Located.mk (SourceLocation.Generated SourceLocation.Unknown) 'x') :=
  ⟨(located_hash_combines_location_and_value _).1 _ _ rfl,
   (located_hash_combines_location_and_value _).2 _ _ rfl (by decide)⟩

/-- C8: interning a string and then resolving the returned handle yields the
original string back, and two handles produced by interning into the shared
table are equal exactly when the interned strings are equal. -/
theorem intern_resolve_round_trip (table : List String) (s s1 s2 : String) :
    resolve (interned table s).1 (interned table s).2 = some s ∧
    ((interned (interned table s1).1 s2).2 = (interned table s1).2 ↔ s1 = s2) := by
  refine ⟨interned_getElem table s, ?_, ?_⟩
  · intro h
    have h2 := interned_getElem (interned table s1).1 s2
    rw [h, interned_table_stable _ s2 (interned_handle_lt table s1),
        interned_getElem table s1] at h2
    exact Option.some.inj h2
  · intro h
    subst h
    rw [interned_of_lookup (interned_lookup table s1)]

/-- C7 counterexample: in the default configuration (no `bigint` feature)
`BigInteger` is the bounded machine integer `i64`; the integer 2^63 belongs
to an arbitrary-precision numeric literal range but is not representable,
and the two's-complement cast maps it to a different value. -/
theorem biginteger_default_bounded_counterexample :
    ¬ i64Representable 9223372036854775808 ∧
    i64Wrap 9223372036854775808 ≠ 9223372036854775808 := by
  constructor
  · intro h
    rcases h with ⟨_, h2⟩
    revert h2
    decide
  · unfold i64Wrap
    omega

/-- C7 amended: with the `bigint` feature enabled, `BigInteger` is an
arbitrary-precision integer: equality is exact and decidable and every
integer is representable; in the default configuration the `i64` alias
represents exactly the integers in the machine range, on which the
two's-complement cast acts as the identity. -/
theorem biginteger_amended_precision :
    (∀ a b : BigInteger, decide (a = b) = true ↔ a = b) ∧
    (∀ n : Int, ∃ b : BigInteger, b = n) ∧
    (∀ n : Int, i64Wrap n = n ↔ i64Representable n) := by
  refine ⟨fun a b => by simp, fun n => ⟨n, rfl⟩, fun n => ?_⟩
  unfold i64Wrap i64Representable i64Min i64Max
  omega

/-- C1: strict equality between two `Located<T>` values built with `wrap_at`
holds exactly when both the values and the locations coincide: the derived
equality compares both the location and the value. -/
theorem located_strict_eq_iff {T : Type} [DecidableEq T]
    (t1 t2 : T) (loc1 loc2 : SourceLocation) :
    Located.eqStrict (wrap_at t1 loc1) (wrap_at t2 loc2) = true ↔
      (t1 = t2 ∧ loc1 = loc2) := by
  simp only [Located.eqStrict, wrap_at, Bool.and_eq_true, decide_eq_true_eq]
  exact ⟨fun h => ⟨h.2, h.1⟩, fun h => ⟨h.2, h.1⟩⟩

/-- C2: a `Located<T>` built from a value and any location compares equal to
the bare value under the value-only comparison, and the dereferenced value is
the bare value itself, regardless of the location. -/
theorem located_value_eq_ignores_location {T : Type} [DecidableEq T]
    (t : T) (loc : SourceLocation) :
    Located.eqValue (wrap_at t loc) t = true ∧ t = Located.deref (wrap_at t loc) :=
  ⟨by simp [Located.eqValue, wrap_at], rfl⟩

/-- C3: `Located::map` keeps the location unchanged and applies the function
to the value; mapping the identity function over any located value yields it
back unchanged. -/
theorem located_map_preserves_location {T U : Type}
    (t : T) (loc : SourceLocation) (f : T → U) (l : Located T) :
    (Located.map (wrap_at t loc) f).location = loc ∧
    (Located.map (wrap_at t loc) f).value = f t ∧
    Located.map l id = l :=
  ⟨rfl, rfl, rfl⟩

/-- C4: the default construction from a bare value yields the `Unknown`
location and compares equal to the bare value under value-only equality. -/
theorem wrap_location_unknown {T : Type} [DecidableEq T] (t : T) :
    (wrap t).location = SourceLocation.Unknown ∧
    Located.eqValue (wrap t) t = true :=
  ⟨rfl, by simp [Located.eqValue, wrap]⟩

/-- C6: `is_fatal` is a total function on the six parser error kinds,
returning `true` for exactly `UnterminatedStringLiteral` and
`UnrecognizedCharacter`, and `false` for the other four kinds. -/
theorem is_fatal_exactly_two_kinds :
    ParserError.is_fatal ParserError.UnterminatedStringLiteral = true ∧
    (∀ c, ParserError.is_fatal (ParserError.UnrecognizedCharacter c) = true) ∧
    (∀ c, ParserError.is_fatal (ParserError.MalformedNumberLiteral c) = false) ∧
    ParserError.is_fatal ParserError.UnmatchedOpenBlock = false ∧
    ParserError.is_fatal ParserError.UnmatchedCloseBlock = false ∧
    ParserError.is_fatal ParserError.UnknownOperator = false :=
  ⟨rfl, fun _ => rfl, fun _ => rfl, rfl, rfl, rfl⟩

/-- C9: each of the six parser error kinds renders to exactly one fixed
message template, and the fault `MalformedNumberLiteral('x')` located at
`Span(10..11)` reports `is_fatal = false` and renders the fixed message
mentioning the offending character. -/
theorem parser_error_messages_fixed :
    (∀ c, ParserError.msg (ParserError.MalformedNumberLiteral c) =
      "number literal is this base cannot contain " ++ String.singleton c) ∧
    (∀ c, ParserError.msg (ParserError.UnrecognizedCharacter c) =
      "unrecognized character " ++ String.singleton c) ∧
    ParserError.msg ParserError.UnterminatedStringLiteral =
      "unterminated string literal" ∧
    ParserError.msg ParserError.UnmatchedOpenBlock = "unmatched `\x7b`" ∧
    ParserError.msg ParserError.UnmatchedCloseBlock = "unmatched `\x7d`" ∧
    ParserError.msg ParserError.UnknownOperator = "unknown operator" ∧
    ParserError.is_fatal
      (wrap_at (ParserError.MalformedNumberLiteral 'x')
        (SourceLocation.Span ⟨10, 11⟩)).value = false ∧
    ParserError.msg
      (wrap_at (ParserError.MalformedNumberLiteral 'x')
        (SourceLocation.Span ⟨10, 11⟩)).value =
      "number literal is this base cannot contain x" ∧
    'x' ∈ (ParserError.msg
      (wrap_at (ParserError.MalformedNumberLiteral 'x')
        (SourceLocation.Span ⟨10, 11⟩)).value).data :=
  ⟨fun _ => rfl, fun _ => rfl, rfl, rfl, rfl, rfl, rfl, by decide, by decide⟩

/-- C10: an attribute wrapper is transparent to the provenance of its
payload: projecting the wrapped inner node out of an
`Expression::Attribute` (or `Pattern::Attribute`) yields a located node
whose location is exactly the inner node's own original location. -/
theorem attribute_wrapper_preserves_inner_location
    (name : Text) (data : Option LocatedAttributeData)
    (inner : LocatedExpression)
    (pname : Text) (pdata : Option LocatedAttributeData)
    (pinner : LocatedPattern) :
    Expression.attributeInner (Expression.Attribute name data inner) =
      some inner ∧
    Option.map Located.location
      (Expression.attributeInner (Expression.Attribute name data inner)) =
      some inner.location ∧
    Pattern.attributeInner (Pattern.Attribute pname pdata pinner) =
      some pinner ∧
    Option.map Located.location
      (Pattern.attributeInner (Pattern.Attribute pname pdata pinner)) =
      some pinner.location :=
  ⟨rfl, rfl, rfl, rfl⟩

end Rigging
